import Mathlib

/-!
Verification of the prediction-table ingestion and query layer of
`dashboard.py` (fraud-detection dashboard).  The embedding models the
table loaded by `pandas.read_csv` as an ordered list of rows of rational
values together with the list of raw column names; Python `int()`
parsing, `str.strip` trimming, substring matching of column names, the
metric computations, the transaction-lookup widget branch and the
filter-and-head sampling are translated directly from the source.
-/

namespace FraudDashboard

/-- ASCII whitespace accepted by Python `int()` / `str.strip` (the model
restricts to the ASCII subset of the Python whitespace set). -/
def isPySpace (c : Char) : Bool :=
  c = ' ' || c = '\t' || c = '\n' || c = '\x0d' || c = '\x0b' || c = '\x0c'

/-- Predicate `leadsWith pat l` is true when `pat` is an initial segment of `l`. -/
def leadsWith : List Char → List Char → Bool
  | [], _ => true
  | _ :: _, [] => false
  | p :: ps, c :: cs => p == c && leadsWith ps cs

/-- Predicate `hasSub pat l` is true when `pat` occurs contiguously inside `l`. -/
def hasSub (pat : List Char) : List Char → Bool
  | [] => leadsWith pat []
  | c :: cs => leadsWith pat (c :: cs) || hasSub pat cs

/-- Strip leading and trailing Python whitespace from a character list,
modelling `str.strip()` and the whitespace stripping of `int()`. -/
def pyTrim (l : List Char) : List Char :=
  ((l.dropWhile isPySpace).reverse.dropWhile isPySpace).reverse

/-- Accumulate the value of a decimal digit string; `none` on a
non-digit character. -/
def digitsValCore : List Char → Nat → Option Nat
  | [], acc => some acc
  | c :: cs, acc =>
      if c.isDigit then digitsValCore cs (acc * 10 + (c.toNat - 48)) else none

/-- Value of a non-empty all-digit character list, `none` otherwise. -/
def digitsVal : List Char → Option Nat
  | [] => none
  | c :: cs => digitsValCore (c :: cs) 0

/-- Python `int(s)` on a string: strip whitespace, optional sign, then a
non-empty decimal digit string; `none` models `ValueError`.  (Exotic
literal forms — underscore separators, non-ASCII digits — are outside
the model.) -/
def parsePyInt (s : String) : Option Int :=
  match pyTrim s.data with
  | '+' :: ds => (digitsVal ds).map (fun v => (v : Int))
  | '-' :: ds => (digitsVal ds).map (fun v => -(v : Int))
  | ds => (digitsVal ds).map (fun v => (v : Int))

/-- Python `int()` applied to a number: truncation toward zero. -/
def pyIntTrunc (q : ℚ) : ℤ :=
  if q < 0 then ⌈q⌉ else ⌊q⌋

/-- ASCII lower-casing of one character, modelling `str.lower()` on the
ASCII range (column names are ASCII). -/
def charToLower (c : Char) : Char :=
  if 65 ≤ c.toNat ∧ c.toNat ≤ 90 then Char.ofNat (c.toNat + 32) else c

/-- A row of the prediction table: the cell values in column order
(`pandas` keeps every row aligned with the header). -/
abbrev Row := List ℚ

/-- Value of a row in column `i` (in-range for every real table). -/
def Row.val (r : Row) (i : Nat) : ℚ := r.getD i 0

/-- The loaded prediction table: raw header names in file order plus the
ordered list of records, as produced by `pd.read_csv`. -/
structure Table where
  columns : List String
  rows : List Row
deriving DecidableEq

/-- Code line `df.columns.str.strip()`: trim every column name (as character
lists). -/
def trimCols (cols : List String) : List (List Char) :=
  cols.map (fun s => pyTrim s.data)

/-- Whether a trimmed column name, lower-cased, contains `key`
(`key in col.lower()` in the source). -/
def nameHits (key : String) (c : List Char) : Bool :=
  hasSub key.data (c.map charToLower)

/-- The `for col in df.columns: if key in col.lower(): ...; break` loop:
index of the first column whose lower-cased name contains `key`. -/
def findMatchIdx (key : String) : List (List Char) → Option Nat
  | [] => none
  | c :: cs =>
      if nameHits key c then some 0
      else (findMatchIdx key cs).map (· + 1)

/-- Resolution of `pred_col`: first trimmed column name containing
`"prediction"` (case-insensitively), else the last column. -/
def predIdx (cols : List String) : Nat :=
  match findMatchIdx "prediction" (trimCols cols) with
  | some i => i
  | none => cols.length - 1

/-- Resolution of `id_col`: first trimmed column name containing
`"transaction"` (case-insensitively), else the first column. -/
def idIdx (cols : List String) : Nat :=
  match findMatchIdx "transaction" (trimCols cols) with
  | some i => i
  | none => 0

/-- Code line `total = len(df)`. -/
def total (t : Table) : Nat := t.rows.length

/-- Code expression `df[pred_col].sum()`: sum of the prediction column. -/
def predSum (t : Table) : ℚ :=
  (t.rows.map (fun r => Row.val r (predIdx t.columns))).sum

/-- Code line `fraud = int(df[pred_col].sum())`. -/
def fraud (t : Table) : ℤ := pyIntTrunc (predSum t)

/-- Code line `legit = total - fraud`. -/
def legit (t : Table) : ℤ := (total t : ℤ) - fraud t

/-- Code line `fraud_rate = (fraud / total) * 100 if total > 0 else 0`. -/
def fraud_rate (t : Table) : ℚ :=
  if 0 < total t then ((fraud t : ℚ) / (total t : ℚ)) * 100 else 0

/-- Modelled from the spec: `fraudCount` as §4 words it — the number of
records whose prediction-column value is truthy (equal to 1 / 1.0). -/
def fraudCountSpec (t : Table) : ℕ :=
  (t.rows.filter (fun r => decide (Row.val r (predIdx t.columns) = 1))).length

/-- Outcomes of the transaction-lookup widget. -/
inductive LookupResult where
  | Fraudulent
  | Legitimate
  | NotFound
  | InvalidId
  | EmptyInput
deriving DecidableEq

/-- The search-button handler (`if search_button and search_id: ...`):
empty input prompts; a non-integer id is a validation error; otherwise
the first record whose id-column value equals the parsed integer decides
the outcome, fraud exactly when its prediction value equals 1 (or 1.0,
identical in ℚ). -/
def lookup (t : Table) (rawId : String) : LookupResult :=
  if rawId = "" then LookupResult.EmptyInput
  else
    match parsePyInt rawId with
    | none => LookupResult.InvalidId
    | some n =>
        match t.rows.find? (fun r => decide (Row.val r (idIdx t.columns) = (n : ℚ))) with
        | none => LookupResult.NotFound
        | some r =>
            if Row.val r (predIdx t.columns) = 1 then LookupResult.Fraudulent
            else LookupResult.Legitimate

/-- Code pattern `df[...].head(limit)` after a boolean filter: the first `limit`
records in table order satisfying the predicate. -/
def sample (t : Table) (p : Row → Bool) (limit : Nat) : List Row :=
  (t.rows.filter p).take limit

/-- The fraud filter `df[pred_col] == 1`. -/
def isFraudRow (t : Table) (r : Row) : Bool :=
  decide (Row.val r (predIdx t.columns) = 1)

/-- The legitimate filter `df[pred_col] == 0`. -/
def isLegitRow (t : Table) (r : Row) : Bool :=
  decide (Row.val r (predIdx t.columns) = 0)

/-- Code line `fraud_samples = df[df[pred_col] == 1].head(n)`. -/
def fraud_samples (t : Table) (n : Nat) : List Row :=
  sample t (isFraudRow t) n

/-- Code line `legit_samples = df[df[pred_col] == 0].head(n)`. -/
def legit_samples (t : Table) (n : Nat) : List Row :=
  sample t (isLegitRow t) n

/-- Outcome of the underlying file read inside `load_data`: success, a
missing file (`FileNotFoundError`), or any other read/parse exception
with its message. -/
inductive ReadResult where
  | ok (t : Table)
  | missing
  | failure (msg : String)
deriving DecidableEq

/-- Result of `load_data`: the table, or a load error. -/
inductive LoadResult where
  | ok (t : Table)
  | notFound
  | parseErr (msg : String)
deriving DecidableEq

/-- Function `load_data`: the `try/except` routing — `FileNotFoundError` becomes
the not-found error, any other exception becomes a parse error carrying
the exception message. -/
def load_data : ReadResult → LoadResult
  | ReadResult.ok t => LoadResult.ok t
  | ReadResult.missing => LoadResult.notFound
  | ReadResult.failure m => LoadResult.parseErr m

/-- Everything the page computes from the table after a successful
load. -/
structure RenderOut where
  totalOut : ℕ
  fraudOut : ℤ
  legitOut : ℤ
  rateOut : ℚ
  fraudSamplesOut : List Row
  legitSamplesOut : List Row
deriving DecidableEq

/-- The render pipeline: `if error: st.error(...); st.stop()` halts the
page (modelled as `none`); otherwise metrics and samples are computed
from the loaded table. -/
def render (r : ReadResult) : Option RenderOut :=
  match load_data r with
  | LoadResult.ok t =>
      some ⟨total t, fraud t, legit t, fraud_rate t,
            fraud_samples t 10, legit_samples t 10⟩
  | LoadResult.notFound => none
  | LoadResult.parseErr _ => none

/-- Spec wording of name matching: the lower-cased (trimmed) column
name contains the key as a contiguous substring. -/
def containsKey (key : String) (c : List Char) : Prop :=
  ∃ a b, c.map charToLower = a ++ key.data ++ b

theorem leadsWith_iff (pat : List Char) :
    ∀ l, leadsWith pat l = true ↔ ∃ b, l = pat ++ b := by
  induction pat with
  | nil => intro l; simp [leadsWith]
  | cons p ps ih =>
    intro l
    cases l with
    | nil => simp [leadsWith]
    | cons c cs =>
      simp only [leadsWith, Bool.and_eq_true, beq_iff_eq, ih cs, List.cons_append,
        List.cons.injEq]
      constructor
      · rintro ⟨rfl, b, rfl⟩; exact ⟨b, rfl, rfl⟩
      · rintro ⟨b, rfl, rfl⟩; exact ⟨rfl, b, rfl⟩

theorem hasSub_iff (pat : List Char) :
    ∀ l, hasSub pat l = true ↔ ∃ a b, l = a ++ pat ++ b := by
  intro l
  induction l with
  | nil =>
    simp only [hasSub, leadsWith_iff]
    constructor
    · rintro ⟨b, h⟩
      exact ⟨[], b, by simpa using h⟩
    · rintro ⟨a, b, h⟩
      rw [List.append_assoc] at h
      obtain ⟨ha, hpb⟩ := List.append_eq_nil.mp h.symm
      exact ⟨b, by rw [hpb]⟩
  | cons c cs ih =>
    simp only [hasSub, Bool.or_eq_true, leadsWith_iff, ih]
    constructor
    · rintro (⟨b, hb⟩ | ⟨a, b, rfl⟩)
      · exact ⟨[], b, by simpa using hb⟩
      · exact ⟨c :: a, b, rfl⟩
    · rintro ⟨a, b, h⟩
      cases a with
      | nil => exact Or.inl ⟨b, by simpa using h⟩
      | cons x xs =>
        simp only [List.cons_append] at h
        injection h with h1 h2
        exact Or.inr ⟨xs, b, h2⟩

theorem nameHits_iff (key : String) (c : List Char) :
    nameHits key c = true ↔ containsKey key c :=
  hasSub_iff key.data (c.map charToLower)

theorem findMatchIdx_none_iff (key : String) :
    ∀ l, findMatchIdx key l = none ↔ ∀ c ∈ l, nameHits key c = false := by
  intro l
  induction l with
  | nil => simp [findMatchIdx]
  | cons c cs ih =>
    by_cases h : nameHits key c
    · simp [findMatchIdx, h]
    · have hf : nameHits key c = false := by simpa using h
      simp only [findMatchIdx, hf, Bool.false_eq_true, if_false, Option.map_eq_none', ih,
        List.mem_cons]
      constructor
      · rintro hall d (rfl | hd)
        · exact hf
        · exact hall d hd
      · intro hall d hd
        exact hall d (Or.inr hd)

theorem findMatchIdx_some_spec (key : String) :
    ∀ l i, findMatchIdx key l = some i →
      i < l.length ∧ nameHits key (l.getD i []) = true ∧
        ∀ j < i, nameHits key (l.getD j []) = false := by
  intro l
  induction l with
  | nil => intro i h; simp [findMatchIdx] at h
  | cons c cs ih =>
    intro i h
    by_cases hc : nameHits key c = true
    · simp only [findMatchIdx, hc, if_true, Option.some.injEq] at h
      subst h
      exact ⟨Nat.succ_pos _, by simpa using hc, by omega⟩
    · simp only [findMatchIdx, hc, if_false, Bool.false_eq_true, Option.map_eq_some'] at h
      obtain ⟨i', hi', rfl⟩ := h
      obtain ⟨hlt, hhit, hrest⟩ := ih i' hi'
      refine ⟨by simpa using Nat.succ_lt_succ hlt, by simpa using hhit, ?_⟩
      intro j hj
      cases j with
      | zero => simpa using Bool.not_eq_true _ ▸ hc
      | succ j' => simpa using hrest j' (by omega)

theorem firstHit_spec (key : String) (l : List (List Char)) (i : Nat)
    (h : findMatchIdx key l = some i) :
    i < l.length ∧ containsKey key (l.getD i []) ∧
      ∀ j < i, ¬ containsKey key (l.getD j []) := by
  obtain ⟨h1, h2, h3⟩ := findMatchIdx_some_spec key l i h
  refine ⟨h1, (nameHits_iff _ _).mp h2, fun j hj hck => ?_⟩
  exact (Bool.eq_false_iff.mp (h3 j hj)) ((nameHits_iff _ _).mpr hck)

theorem noHit_spec (key : String) (l : List (List Char))
    (h : findMatchIdx key l = none) :
    ∀ j < l.length, ¬ containsKey key (l.getD j []) := by
  intro j hj hck
  have hmem : l.getD j [] ∈ l := by
    rw [List.getD_eq_getElem l [] hj]
    exact List.getElem_mem hj
  have hf := (findMatchIdx_none_iff key l).mp h _ hmem
  exact (Bool.eq_false_iff.mp hf) ((nameHits_iff _ _).mpr hck)

theorem find?_first {α : Type} (p : α → Bool) :
    ∀ (l : List α) (i : Nat) (hi : i < l.length), p (l.get ⟨i, hi⟩) = true →
      (∀ j (hj : j < i), p (l.get ⟨j, Nat.lt_trans hj hi⟩) = false) →
      l.find? p = some (l.get ⟨i, hi⟩) := by
  intro l
  induction l with
  | nil => intro i hi; simp at hi
  | cons a as ih =>
    intro i hi hp hbef
    cases i with
    | zero =>
      simp only [List.get] at hp
      simp [List.find?_cons_of_pos _ hp]
    | succ m =>
      have ha : p a = false := by simpa using hbef 0 (Nat.succ_pos m)
      rw [List.find?_cons_of_neg _ (by simp [ha])]
      have hm : m < as.length := Nat.lt_of_succ_lt_succ hi
      have := ih m hm (by simpa using hp)
        (fun j hj => by simpa using hbef (j + 1) (Nat.succ_lt_succ hj))
      simpa using this

/-! Concrete tables used as witnesses and counterexamples. -/

/-- A three-record table with prediction values 0, 1 and 2 (the value 2
is legal input: the source nowhere validates the prediction column). -/
def tEx : Table :=
  ⟨["TransactionID", "prediction"], [[10, 0], [11, 1], [12, 2]]⟩

/-- A one-record table whose prediction value is 2. -/
def tBad : Table :=
  ⟨["TransactionID", "prediction"], [[7, 2]]⟩

/-- The record of `tBad`. -/
def rBad : Row := [7, 2]

/-- A strictly binary prediction table. -/
def tBin : Table :=
  ⟨["TransactionID", "prediction"], [[1, 0], [2, 1], [3, 1]]⟩

/-- A table with zero records. -/
def tEmpty : Table :=
  ⟨["TransactionID", "prediction"], []⟩

/-! Claim theorems. -/

/-- Claim C2: for every table with at least one column, after trimming
the column names, `pred_col` resolves to the first column (in file
order) whose lower-cased name contains `"prediction"`, falling back to
the last column, and `id_col` resolves to the first column whose
lower-cased name contains `"transaction"`, falling back to the first
column. -/
theorem column_resolution (c0 : String) (cs : List String) :
    predIdx (c0 :: cs) < (c0 :: cs).length ∧
    idIdx (c0 :: cs) < (c0 :: cs).length ∧
    ((∃ j, j < (c0 :: cs).length ∧
        containsKey "prediction" ((trimCols (c0 :: cs)).getD j [])) →
      containsKey "prediction" ((trimCols (c0 :: cs)).getD (predIdx (c0 :: cs)) []) ∧
      ∀ j < predIdx (c0 :: cs),
        ¬ containsKey "prediction" ((trimCols (c0 :: cs)).getD j [])) ∧
    ((∀ j < (c0 :: cs).length,
        ¬ containsKey "prediction" ((trimCols (c0 :: cs)).getD j [])) →
      predIdx (c0 :: cs) = (c0 :: cs).length - 1) ∧
    ((∃ j, j < (c0 :: cs).length ∧
        containsKey "transaction" ((trimCols (c0 :: cs)).getD j [])) →
      containsKey "transaction" ((trimCols (c0 :: cs)).getD (idIdx (c0 :: cs)) []) ∧
      ∀ j < idIdx (c0 :: cs),
        ¬ containsKey "transaction" ((trimCols (c0 :: cs)).getD j [])) ∧
    ((∀ j < (c0 :: cs).length,
        ¬ containsKey "transaction" ((trimCols (c0 :: cs)).getD j [])) →
      idIdx (c0 :: cs) = 0) := by
  have hlen : (trimCols (c0 :: cs)).length = (c0 :: cs).length := by
    simp [trimCols]
  have hpred : predIdx (c0 :: cs) < (c0 :: cs).length ∧
      ((∃ j, j < (c0 :: cs).length ∧
          containsKey "prediction" ((trimCols (c0 :: cs)).getD j [])) →
        containsKey "prediction" ((trimCols (c0 :: cs)).getD (predIdx (c0 :: cs)) []) ∧
        ∀ j < predIdx (c0 :: cs),
          ¬ containsKey "prediction" ((trimCols (c0 :: cs)).getD j [])) ∧
      ((∀ j < (c0 :: cs).length,
          ¬ containsKey "prediction" ((trimCols (c0 :: cs)).getD j [])) →
        predIdx (c0 :: cs) = (c0 :: cs).length - 1) := by
    rcases hp : findMatchIdx "prediction" (trimCols (c0 :: cs)) with _ | i
    · have hfall : predIdx (c0 :: cs) = (c0 :: cs).length - 1 := by
        simp [predIdx, hp]
      refine ⟨?_, ?_, fun _ => hfall⟩
      · rw [hfall]
        simp only [List.length_cons]
        omega
      · rintro ⟨j, hj, hck⟩
        exact absurd hck (noHit_spec _ _ hp j (by rwa [hlen]))
    · obtain ⟨hi, hck, hbef⟩ := firstHit_spec _ _ _ hp
      have hpi : predIdx (c0 :: cs) = i := by
        simp [predIdx, hp]
      refine ⟨by rw [hpi]; rwa [hlen] at hi,
        fun _ => ⟨by rwa [hpi], fun j hj => hbef j (by rwa [hpi] at hj)⟩,
        fun hall => absurd hck (hall i (by rwa [hlen] at hi))⟩
  have hid : idIdx (c0 :: cs) < (c0 :: cs).length ∧
      ((∃ j, j < (c0 :: cs).length ∧
          containsKey "transaction" ((trimCols (c0 :: cs)).getD j [])) →
        containsKey "transaction" ((trimCols (c0 :: cs)).getD (idIdx (c0 :: cs)) []) ∧
        ∀ j < idIdx (c0 :: cs),
          ¬ containsKey "transaction" ((trimCols (c0 :: cs)).getD j [])) ∧
      ((∀ j < (c0 :: cs).length,
          ¬ containsKey "transaction" ((trimCols (c0 :: cs)).getD j [])) →
        idIdx (c0 :: cs) = 0) := by
    rcases hp : findMatchIdx "transaction" (trimCols (c0 :: cs)) with _ | i
    · have hfall : idIdx (c0 :: cs) = 0 := by
        simp [idIdx, hp]
      refine ⟨?_, ?_, fun _ => hfall⟩
      · rw [hfall]
        simp
      · rintro ⟨j, hj, hck⟩
        exact absurd hck (noHit_spec _ _ hp j (by rwa [hlen]))
    · obtain ⟨hi, hck, hbef⟩ := firstHit_spec _ _ _ hp
      have hpi : idIdx (c0 :: cs) = i := by
        simp [idIdx, hp]
      refine ⟨by rw [hpi]; rwa [hlen] at hi,
        fun _ => ⟨by rwa [hpi], fun j hj => hbef j (by rwa [hpi] at hj)⟩,
        fun hall => absurd hck (hall i (by rwa [hlen] at hi))⟩
  exact ⟨hpred.1, hid.1, hpred.2.1, hpred.2.2, hid.2.1, hid.2.2⟩

/-- Witness for C2 on the spec §8 header: `pred_col` lands on the
matching second column with nothing matching before it. -/
theorem column_resolution_witness :
    containsKey "prediction"
      ((trimCols ["TransactionID", " isFraud_prediction ", "amt"]).getD
        (predIdx ["TransactionID", " isFraud_prediction ", "amt"]) []) ∧
    ∀ j < predIdx ["TransactionID", " isFraud_prediction ", "amt"],
      ¬ containsKey "prediction"
        ((trimCols ["TransactionID", " isFraud_prediction ", "amt"]).getD j []) :=
  (column_resolution "TransactionID" [" isFraud_prediction ", "amt"]).2.2.1
    ⟨1, by decide, (nameHits_iff _ _).mp (by decide)⟩

theorem sum_binary_eq_count (l : List ℚ) (hb : ∀ x ∈ l, x = 0 ∨ x = 1) :
    l.sum = ((l.filter (fun x => decide (x = 1))).length : ℚ) := by
  induction l with
  | nil => simp
  | cons x xs ih =>
    have hxs := fun y hy => hb y (List.mem_cons_of_mem x hy)
    rcases hb x (List.mem_cons_self x xs) with rfl | rfl
    · rw [List.sum_cons, List.filter_cons_of_neg (by norm_num), ih hxs]
      norm_num
    · rw [List.sum_cons, List.filter_cons_of_pos (by norm_num), ih hxs, List.length_cons]
      push_cast
      ring

theorem pyIntTrunc_natCast (k : ℕ) : pyIntTrunc (k : ℚ) = (k : ℤ) := by
  rw [pyIntTrunc, if_neg (not_lt.mpr (Nat.cast_nonneg k)), Int.floor_natCast]

/-- Claim C1 (counterexample): on a table whose single prediction value
is 2, the integer-truncated column sum is 2 while no record has a truthy
(equal to 1) prediction, so the displayed fraud count is not the count
of fraud records. -/
theorem fraud_count_counterexample :
    fraud tBad = 2 ∧ fraudCountSpec tBad = 0 ∧
    fraud tBad ≠ (fraudCountSpec tBad : ℤ) := by
  have h : fraud tBad = 2 := by
    norm_num [fraud, predSum, pyIntTrunc, Row.val, tBad,
      show predIdx ["TransactionID", "prediction"] = 1 from rfl]
  have hc : fraudCountSpec tBad = 0 := by decide
  exact ⟨h, hc, by rw [h, hc]; decide⟩

/-- Claim C1 (amended): on every table whose prediction-column values
are all 0 or 1 — the binary tables the pipeline produces — the
integer-truncated column sum equals the number of records whose
prediction value is truthy (equal to 1 / 1.0). -/
theorem fraud_count_binary (t : Table)
    (hb : ∀ r ∈ t.rows,
      Row.val r (predIdx t.columns) = 0 ∨ Row.val r (predIdx t.columns) = 1) :
    fraud t = (fraudCountSpec t : ℤ) := by
  have hmap : ∀ x ∈ t.rows.map (fun r => Row.val r (predIdx t.columns)), x = 0 ∨ x = 1 := by
    intro x hx
    obtain ⟨r, hr, rfl⟩ := List.mem_map.mp hx
    exact hb r hr
  have hsum := sum_binary_eq_count _ hmap
  have hlen : ((t.rows.map (fun r => Row.val r (predIdx t.columns))).filter
      (fun x => decide (x = 1))).length = fraudCountSpec t := by
    rw [List.filter_map, List.length_map]
    rfl
  rw [fraud, predSum, hsum, hlen, pyIntTrunc_natCast]

/-- Witness for C1 (amended) on the binary table `tBin`. -/
theorem fraud_count_binary_witness :
    fraud tBin = (fraudCountSpec tBin : ℤ) :=
  fraud_count_binary tBin (by decide)

/-- Claim C4 (counterexample): the record of `tBad` has prediction value
2, which is not fraud (not equal to 1) yet fails the `== 0` legitimate
filter, so the two sample classes do not cover the table. -/
theorem legit_filter_counterexample :
    rBad ∈ tBad.rows ∧ Row.val rBad (predIdx tBad.columns) ≠ 1 ∧
    isFraudRow tBad rBad = false ∧ isLegitRow tBad rBad = false := by
  decide

/-- Claim C4 (amended): on every table whose prediction-column values
are all 0 or 1, each record is classified into exactly one of the two
sample classes: it passes exactly one of the `== 1` fraud filter and the
`== 0` legitimate filter. -/
theorem record_classes_binary (t : Table)
    (hb : ∀ r ∈ t.rows,
      Row.val r (predIdx t.columns) = 0 ∨ Row.val r (predIdx t.columns) = 1) :
    ∀ r ∈ t.rows,
      (isFraudRow t r = true ∧ isLegitRow t r = false) ∨
      (isFraudRow t r = false ∧ isLegitRow t r = true) := by
  intro r hr
  rcases hb r hr with h | h
  · right
    constructor <;> norm_num [isFraudRow, isLegitRow, h]
  · left
    constructor <;> norm_num [isFraudRow, isLegitRow, h]

/-- Witness for C4 (amended): the second record of `tBin` (prediction 1)
is in the fraud class and not the legitimate class. -/
theorem record_classes_binary_witness :
    (isFraudRow tBin [2, 1] = true ∧ isLegitRow tBin [2, 1] = false) ∨
    (isFraudRow tBin [2, 1] = false ∧ isLegitRow tBin [2, 1] = true) :=
  record_classes_binary tBin (by decide) [2, 1] (by decide)

/-- Claim C3: when the raw id parses as the integer `n`, the lookup
returns NotFound exactly when no record carries id `n`; otherwise the
first record in table order with id `n` decides the outcome, Fraudulent
exactly when its prediction value equals 1 (1.0 is the same rational). -/
theorem lookup_found_first (t : Table) (rawId : String) (n : ℤ)
    (h : parsePyInt rawId = some n) :
    (lookup t rawId = LookupResult.NotFound ↔
      ∀ r ∈ t.rows, Row.val r (idIdx t.columns) ≠ (n : ℚ)) ∧
    ∀ i (hi : i < t.rows.length),
      Row.val (t.rows.get ⟨i, hi⟩) (idIdx t.columns) = (n : ℚ) →
      (∀ j (hj : j < i),
        Row.val (t.rows.get ⟨j, Nat.lt_trans hj hi⟩) (idIdx t.columns) ≠ (n : ℚ)) →
      lookup t rawId =
        (if Row.val (t.rows.get ⟨i, hi⟩) (predIdx t.columns) = 1
         then LookupResult.Fraudulent else LookupResult.Legitimate) := by
  have hne : rawId ≠ "" := by
    intro he
    rw [he] at h
    exact Option.noConfusion h
  constructor
  · constructor
    · intro heq r hr hid
      rcases hf : t.rows.find? (fun r => decide (Row.val r (idIdx t.columns) = (n : ℚ)))
          with _ | r'
      · exact absurd hid (by simpa using List.find?_eq_none.mp hf r hr)
      · simp only [lookup, if_neg hne, h, hf] at heq
        split at heq <;> exact LookupResult.noConfusion heq
    · intro hall
      have hf : t.rows.find? (fun r => decide (Row.val r (idIdx t.columns) = (n : ℚ))) = none :=
        List.find?_eq_none.mpr (fun r hr => by simpa using hall r hr)
      simp [lookup, if_neg hne, h, hf]
  · intro i hi hid hbef
    have hf := find?_first (fun r => decide (Row.val r (idIdx t.columns) = (n : ℚ)))
      t.rows i hi (by simpa using hid) (fun j hj => by simpa using hbef j hj)
    simp [lookup, if_neg hne, h, hf]

/-- Witness for C3: on `tEx`, id 12 hits the third record (prediction 2,
not fraud) and id 99 hits nothing. -/
theorem lookup_found_first_witness :
    lookup tEx "12" = LookupResult.Legitimate ∧
    lookup tEx "99" = LookupResult.NotFound := by
  constructor
  · have h2 := (lookup_found_first tEx "12" 12 rfl).2 2 (by decide) (by decide)
      (fun j hj => by
        rcases (by omega : j = 0 ∨ j = 1) with rfl | rfl
        · exact (by decide :
            ¬ Row.val (tEx.rows.get ⟨0, by decide⟩) (idIdx tEx.columns) = ((12 : ℤ) : ℚ))
        · exact (by decide :
            ¬ Row.val (tEx.rows.get ⟨1, by decide⟩) (idIdx tEx.columns) = ((12 : ℤ) : ℚ)))
    rw [h2]
    decide
  · exact (lookup_found_first tEx "99" 99 rfl).1.mpr (by decide)

/-- Claim C5 (counterexample): the empty string is not a valid integer,
yet the handler answers with the empty-input prompt, not the invalid-id
validation message. -/
theorem invalid_id_counterexample :
    parsePyInt "" = none ∧ lookup tEx "" = LookupResult.EmptyInput ∧
    lookup tEx "" ≠ LookupResult.InvalidId :=
  ⟨rfl, rfl, by decide⟩

/-- Claim C5 (amended): for every non-empty raw id that is not a valid
integer, the lookup answers with the invalid-id validation message; the
handler is a total function (it cannot raise), and it reads but never
writes the table, so no other query result changes. -/
theorem lookup_invalid_id (t : Table) (rawId : String) (hne : rawId ≠ "")
    (h : parsePyInt rawId = none) :
    lookup t rawId = LookupResult.InvalidId := by
  simp [lookup, hne, h]

/-- Witness for C5 (amended) at the spec §8 input `"abc"`. -/
theorem lookup_invalid_id_witness :
    lookup tEx "abc" = LookupResult.InvalidId :=
  lookup_invalid_id tEx "abc" (by decide) rfl

/-- Claim C10: the empty-input check tests emptiness, not blankness —
a non-empty all-whitespace id falls through to integer parsing and gets
the invalid-id message; the empty-input prompt appears exactly for the
empty string; and whitespace around digits is accepted by the parse. -/
theorem blank_input_validation (t : Table) (rawId : String) :
    (rawId ≠ "" → rawId.data.all isPySpace = true →
      lookup t rawId = LookupResult.InvalidId) ∧
    (lookup t rawId = LookupResult.EmptyInput ↔ rawId = "") ∧
    parsePyInt " 42 " = some 42 := by
  refine ⟨fun hne hsp => ?_, ⟨fun h => ?_, fun h => by simp [lookup, h]⟩, by decide⟩
  · have htrim : pyTrim rawId.data = [] := by
      have hd : rawId.data.dropWhile isPySpace = [] :=
        List.dropWhile_eq_nil_iff.mpr (fun x hx => by
          simpa using List.all_eq_true.mp hsp x hx)
      simp [pyTrim, hd]
    have hparse : parsePyInt rawId = none := by
      rw [parsePyInt, htrim]
      rfl
    simp [lookup, hne, hparse]
  · by_contra hne
    rcases hp : parsePyInt rawId with _ | n
    · simp [lookup, if_neg hne, hp] at h
    · rcases hf : t.rows.find? (fun r => decide (Row.val r (idIdx t.columns) = (n : ℚ)))
        with _ | r
      · simp [lookup, if_neg hne, hp, hf] at h
      · simp only [lookup, if_neg hne, hp, hf] at h
        split at h <;> exact LookupResult.noConfusion h

/-- Witness for C10: a one-space id gets the invalid-id message while
the empty id gets the empty-input prompt. -/
theorem blank_input_validation_witness :
    lookup tEx " " = LookupResult.InvalidId ∧
    lookup tEx "" = LookupResult.EmptyInput :=
  ⟨(blank_input_validation tEx " ").1 (by decide) (by decide),
   (blank_input_validation tEx "").2.1.mpr rfl⟩

/-- Claim C6: `load_data` reports the not-found error exactly when the
file is missing, reports a parse error carrying the underlying message
exactly for any other read failure, and on any load error the render
halts: no metrics or samples are produced. -/
theorem load_error_routing (r : ReadResult) :
    (load_data r = LoadResult.notFound ↔ r = ReadResult.missing) ∧
    (∀ m, load_data r = LoadResult.parseErr m ↔ r = ReadResult.failure m) ∧
    ((load_data r = LoadResult.notFound ∨ ∃ m, load_data r = LoadResult.parseErr m) →
      render r = none) := by
  cases r <;> simp [load_data, render]

/-- Witness for C6 at the concrete missing-file and failing reads. -/
theorem load_error_routing_witness :
    load_data ReadResult.missing = LoadResult.notFound ∧
    render ReadResult.missing = none ∧
    load_data (ReadResult.failure "bad csv") = LoadResult.parseErr "bad csv" ∧
    render (ReadResult.failure "bad csv") = none :=
  ⟨(load_error_routing ReadResult.missing).1.mpr rfl,
   (load_error_routing ReadResult.missing).2.2
     (Or.inl ((load_error_routing ReadResult.missing).1.mpr rfl)),
   ((load_error_routing (ReadResult.failure "bad csv")).2.1 "bad csv").mpr rfl,
   (load_error_routing (ReadResult.failure "bad csv")).2.2
     (Or.inr ⟨"bad csv", ((load_error_routing (ReadResult.failure "bad csv")).2.1 "bad csv").mpr rfl⟩)⟩

/-- Claim C7: the metrics never fail on division — the fraud rate is
`(fraud / total) * 100` when the table is non-empty and `0` on an empty
table, and the legitimate count is always `total - fraud`. -/
theorem summarize_division_safe (t : Table) :
    (total t = 0 → fraud_rate t = 0) ∧
    (0 < total t → fraud_rate t = ((fraud t : ℚ) / (total t : ℚ)) * 100) ∧
    legit t = (total t : ℤ) - fraud t := by
  refine ⟨fun h => ?_, fun h => ?_, rfl⟩
  · simp [fraud_rate, h]
  · simp [fraud_rate, h]

/-- Witness for C7 on the empty table and on a non-empty table. -/
theorem summarize_division_safe_witness :
    fraud_rate tEmpty = 0 ∧
    fraud_rate tEx = ((fraud tEx : ℚ) / (total tEx : ℚ)) * 100 :=
  ⟨(summarize_division_safe tEmpty).1 rfl,
   (summarize_division_safe tEx).2.1 (by decide)⟩

/-- Claim C9: sampling is deterministic — two calls with equal table,
predicate and limit return identical record sequences. -/
theorem sample_deterministic (t₁ t₂ : Table) (p₁ p₂ : Row → Bool)
    (l₁ l₂ : Nat) (ht : t₁ = t₂) (hp : p₁ = p₂) (hl : l₁ = l₂) :
    sample t₁ p₁ l₁ = sample t₂ p₂ l₂ := by
  rw [ht, hp, hl]

/-- Witness for C9: two identical fraud-sample calls on `tEx` agree. -/
theorem sample_deterministic_witness :
    sample tEx (isFraudRow tEx) 2 = sample tEx (isFraudRow tEx) 2 :=
  sample_deterministic tEx tEx (isFraudRow tEx) (isFraudRow tEx) 2 2 rfl rfl rfl

/-- Claim C8: `sample` returns exactly the first `min limit k` matching
records in table order (`k` the number of matches): all returned records
satisfy the predicate, the returned list is an initial segment of the
matched records, no match yields the empty sequence, and fewer than
`limit` matches yields exactly the matches, neither padded nor failing. -/
theorem sample_first_matches (t : Table) (p : Row → Bool) (limit : Nat) :
    (sample t p limit).length = min limit (t.rows.filter p).length ∧
    (∀ r ∈ sample t p limit, p r = true) ∧
    sample t p limit ++ (t.rows.filter p).drop limit = t.rows.filter p ∧
    ((∀ r ∈ t.rows, p r = false) → sample t p limit = []) ∧
    ((t.rows.filter p).length ≤ limit → sample t p limit = t.rows.filter p) := by
  refine ⟨List.length_take limit _, fun r hr => ?_, List.take_append_drop limit _,
    fun h => ?_, fun h => List.take_of_length_le h⟩
  · exact (List.mem_filter.mp (List.mem_of_mem_take hr)).2
  · have hnil : t.rows.filter p = [] := by
      exact List.filter_eq_nil_iff.mpr (fun a ha => by simp [h a ha])
    simp [sample, hnil]

/-- Witness for C8: on `tEx` (one fraud record) a fraud sample of limit
10 under-fills to exactly the single matching record. -/
theorem sample_first_matches_witness :
    (tEx.rows.filter (isFraudRow tEx)).length ≤ 10 ∧
    sample tEx (isFraudRow tEx) 10 = tEx.rows.filter (isFraudRow tEx) :=
  ⟨by decide, (sample_first_matches tEx (isFraudRow tEx) 10).2.2.2.2 (by decide)⟩

end FraudDashboard
